import Mathlib

/-!
Shallow embedding of the drift-prediction engine (server/drift-engine.ts)
of the coast-guard repository, together with theorems settling the claims
about it.

Modelling conventions:
- JavaScript floating-point numbers are modelled as real numbers.
- `Math.random()` is modelled as an explicit stream `rand : ℕ → ℝ` of draws,
  consumed in the exact order the source calls `Math.random()`: four draws per
  simulated hour (wind speed, current speed, wind direction, current
  direction), hours within a path first, then the next path.
- `Number.prototype.toFixed(3)` followed by `parseFloat` is modelled as
  rounding to the nearest multiple of 1/1000 (kept as an integer numerator).
- `Math.max(...xs)` / `Math.min(...xs)` on a nonempty array are modelled by
  `listMax` / `listMin` (a fold of the binary max/min over the array); the
  source only applies them to nonempty arrays, so the value returned for the
  empty array is irrelevant and set to 0.
- The JavaScript `Map` keyed by grid cell is modelled by the list of occupied
  keys without duplicates (`List.dedup`) together with the occurrence count of
  each key; all properties proved about the heatmap are invariant under the
  order in which the cells are listed.
-/

namespace DriftEngine

/-- Earth radius in kilometres, the constant `R = 6371` of the source. -/
def R : ℝ := 6371

/-- A latitude/longitude pair, the `DriftPoint` interface of the source. -/
structure DriftPoint where
  lat : ℝ
  lng : ℝ

/-- A heatmap cell, the `HeatmapPoint` interface of the source. -/
structure HeatmapPoint where
  lat : ℝ
  lng : ℝ
  intensity : ℝ

/-- The weather sample consumed by the engine (`MarineWeatherData`). -/
structure MarineWeatherData where
  windSpeed : ℝ
  windDirection : ℝ
  waveHeight : ℝ
  currentSpeed : ℝ
  currentDirection : ℝ

/-- The result record returned by the engine (`DriftSimulationResult`). -/
structure DriftSimulationResult where
  predictedPoints : List DriftPoint
  heatmapPoints : List HeatmapPoint
  driftPaths : List (List DriftPoint)

/-- The drift kinematics model, translated line by line from the source
function `calculateDrift`. -/
noncomputable def calculateDrift (lat lng windSpeed windDirection currentSpeed
    currentDirection hours : ℝ) : DriftPoint :=
  let windSpeedMs := windSpeed / 3.6
  let windDriftFactor := (0.035 : ℝ)
  let windDriftSpeed := windSpeedMs * windDriftFactor
  let windAngle := (windDirection * Real.pi) / 180
  let currentAngle := (currentDirection * Real.pi) / 180
  let windDriftX := windDriftSpeed * Real.sin windAngle
  let windDriftY := windDriftSpeed * Real.cos windAngle
  let currentX := currentSpeed * Real.sin currentAngle
  let currentY := currentSpeed * Real.cos currentAngle
  let totalVelocityX := windDriftX + currentX
  let totalVelocityY := windDriftY + currentY
  let distanceX := totalVelocityX * hours * 3600 / 1000
  let distanceY := totalVelocityY * hours * 3600 / 1000
  let latChange := (distanceY / R) * (180 / Real.pi)
  let lngChange := (distanceX / R) * (180 / Real.pi) / Real.cos ((lat * Real.pi) / 180)
  ⟨lat + latChange, lng + lngChange⟩

/-- The source function `randomVariation`, with the `Math.random()` draw `r`
passed explicitly. -/
noncomputable def randomVariation (value percentage r : ℝ) : ℝ :=
  let variation := value * (percentage / 100)
  value + (r * 2 - 1) * variation

/-- The source function `randomAngleVariation`, with the `Math.random()` draw
`r` passed explicitly. -/
noncomputable def randomAngleVariation (angle maxDegrees r : ℝ) : ℝ :=
  angle + (r * 2 - 1) * maxDegrees

/-- One simulated hour of the Monte Carlo loop body: draw the four random
perturbations (at stream positions `c`, `c+1`, `c+2`, `c+3`, the order the
source calls `Math.random()`) and apply `calculateDrift` for one hour. -/
noncomputable def driftStep (rand : ℕ → ℝ) (c : ℕ) (weather : MarineWeatherData)
    (p : DriftPoint) : DriftPoint :=
  calculateDrift p.lat p.lng
    (randomVariation weather.windSpeed 20 (rand c))
    (randomAngleVariation weather.windDirection 15 (rand (c + 2)))
    (randomVariation weather.currentSpeed 15 (rand (c + 1)))
    (randomAngleVariation weather.currentDirection 10 (rand (c + 3)))
    1

/-- The inner loop of `runMonteCarloSimulation` for one path: starting from
`p` (the path holds the start point at hour 0), append one `driftStep` per
remaining hour, consuming four draws per hour starting at stream position
`c`. -/
noncomputable def runPath (rand : ℕ → ℝ) (weather : MarineWeatherData) :
    ℕ → DriftPoint → ℕ → List DriftPoint
  | _, p, 0 => [p]
  | c, p, n + 1 => p :: runPath rand weather (c + 4) (driftStep rand c weather p) n

/-- The grid key of the source (the two coordinates formatted with
`toFixed(3)` and joined), modelled as the pair of numerators of the
coordinates rounded to three decimal places. Exact rounding ties on negative
coordinates differ in direction between this model and the JavaScript string
formatting; no claim depends on the tie direction, or indeed on the key
function at all beyond it being a function of the position. -/
noncomputable def gridKey (p : DriftPoint) : ℤ × ℤ :=
  (round (p.lat * 1000), round (p.lng * 1000))

/-- Model of the spread form of `Math.max` on a list; the source only applies
it to nonempty lists, so the value for the empty list is irrelevant. -/
def listMax {α : Type} [LinearOrder α] [Zero α] : List α → α
  | [] => 0
  | x :: xs => xs.foldl max x

/-- Model of the spread form of `Math.min` on a list; the source only applies
it to nonempty lists, so the value for the empty list is irrelevant. -/
def listMin {α : Type} [LinearOrder α] [Zero α] : List α → α
  | [] => 0
  | x :: xs => xs.foldl min x

/-- The `driftPaths` array built by the outer loop of
`runMonteCarloSimulation`: path `pathIndex` starts at the start position and
consumes the block of random draws beginning at `4 * simulationHours *
pathIndex`. -/
noncomputable def simDriftPaths (rand : ℕ → ℝ) (startLat startLng : ℝ)
    (weather : MarineWeatherData) (simulationHours numPaths : ℕ) :
    List (List DriftPoint) :=
  (List.range numPaths).map fun pathIndex =>
    runPath rand weather (4 * simulationHours * pathIndex)
      ⟨startLat, startLng⟩ simulationHours

/-- The `allPoints` array of the source: every non-initial position of every
path, in generation order (hours within a path, then the next path). -/
def allSampledPoints (paths : List (List DriftPoint)) : List DriftPoint :=
  (paths.map fun path => path.drop 1).flatten

/-- The `maxCount` of the source: the maximum occupancy count over all
occupied grid cells. -/
def simMaxCount (allKeys : List (ℤ × ℤ)) : ℕ :=
  listMax (allKeys.dedup.map fun k => allKeys.count k)

/-- The `heatmapPoints` array of the source: one entry per occupied grid
cell, carrying the cell coordinates recovered from the key (`parseFloat` of
the rounded decimal string) and the count normalised by `maxCount`. -/
noncomputable def heatmapOfKeys (allKeys : List (ℤ × ℤ)) : List HeatmapPoint :=
  allKeys.dedup.map fun k =>
    ⟨(k.1 : ℝ) / 1000, (k.2 : ℝ) / 1000,
      (allKeys.count k : ℝ) / (simMaxCount allKeys : ℝ)⟩

/-- The source function `calculateCentroidPoints`: split the pool into
`hours` chunks of `⌊points.length / hours⌋` positions and push the mean of
each nonempty chunk. -/
noncomputable def calculateCentroidPoints (points : List DriftPoint) (hours : ℕ) :
    List DriftPoint :=
  if points.length = 0 then []
  else
    let pointsPerHour := points.length / hours
    (List.range hours).filterMap fun h =>
      let start := h * pointsPerHour
      let hourPoints := (points.drop start).take pointsPerHour
      if hourPoints.length > 0 then
        some ⟨(hourPoints.foldl (fun sum p => sum + p.lat) 0) / (hourPoints.length : ℝ),
              (hourPoints.foldl (fun sum p => sum + p.lng) 0) / (hourPoints.length : ℝ)⟩
      else none

/-- The source function `runMonteCarloSimulation`, assembled from the pieces
above. -/
noncomputable def runMonteCarloSimulation (rand : ℕ → ℝ) (startLat startLng : ℝ)
    (weather : MarineWeatherData) (simulationHours : ℕ) (numPaths : ℕ) :
    DriftSimulationResult :=
  let driftPaths := simDriftPaths rand startLat startLng weather simulationHours numPaths
  let allPoints := allSampledPoints driftPaths
  ⟨calculateCentroidPoints allPoints simulationHours,
   heatmapOfKeys (allPoints.map gridKey),
   driftPaths⟩

/-- The source function `generateSearchAreaRadius`. -/
noncomputable def generateSearchAreaRadius (heatmapPoints : List HeatmapPoint) : ℝ :=
  if heatmapPoints.length < 2 then 5
  else
    let lats := heatmapPoints.map fun p => p.lat
    let lngs := heatmapPoints.map fun p => p.lng
    let latRange := listMax lats - listMin lats
    let lngRange := listMax lngs - listMin lngs
    let maxRange := max latRange lngRange
    let radiusKm := (maxRange * 111) / 2
    max 2 (min 50 radiusKm)

/-- Restatement of the claimed drift formula, written exactly as the claim
words it: east/north velocity components, displacement over `h` hours, and
the two angular conversions. -/
noncomputable def calculateDrift_spec (lat lng w thetaW c thetaC h : ℝ) : DriftPoint :=
  let vE := (w / 3.6) * 0.035 * Real.sin (thetaW * Real.pi / 180) +
    c * Real.sin (thetaC * Real.pi / 180)
  let vN := (w / 3.6) * 0.035 * Real.cos (thetaW * Real.pi / 180) +
    c * Real.cos (thetaC * Real.pi / 180)
  let dLat := ((vN * h * 3600 / 1000) / 6371) * (180 / Real.pi)
  let dLng := ((vE * h * 3600 / 1000) / 6371) * (180 / Real.pi) /
    Real.cos (lat * Real.pi / 180)
  ⟨lat + dLat, lng + dLng⟩

/-- Restatement of the claimed centroid computation: pool the non-initial
hourly positions of all paths in generation order, split the pool into
`simulationHours` contiguous chunks of `⌊poolSize / simulationHours⌋`
members dropping any tail remainder, and emit the arithmetic mean latitude
and longitude of each nonempty chunk. -/
noncomputable def predictedPoints_spec (paths : List (List DriftPoint))
    (simulationHours : ℕ) : List DriftPoint :=
  let pool := (paths.map fun path => path.drop 1).flatten
  let chunkSize := pool.length / simulationHours
  (List.range simulationHours).filterMap fun h =>
    let chunk := (pool.drop (h * chunkSize)).take chunkSize
    if chunk.length > 0 then
      some ⟨((chunk.map fun p => p.lat).sum) / (chunk.length : ℝ),
            ((chunk.map fun p => p.lng).sum) / (chunk.length : ℝ)⟩
    else none

/-- Claim C1: for every position, wind, current and duration, `calculateDrift`
returns exactly the position displaced by the claimed formula. -/
theorem calculateDrift_eq_spec (lat lng w thetaW c thetaC h : ℝ) :
    calculateDrift lat lng w thetaW c thetaC h =
      calculateDrift_spec lat lng w thetaW c thetaC h := by
  simp only [calculateDrift, calculateDrift_spec, R, DriftPoint.mk.injEq]

/-- Claim C8: with a duration of zero hours, `calculateDrift` returns the
input position unchanged. -/
theorem calculateDrift_zero_hours (lat lng w thetaW c thetaC : ℝ) :
    calculateDrift lat lng w thetaW c thetaC 0 = ⟨lat, lng⟩ := by
  simp only [calculateDrift, R, DriftPoint.mk.injEq]
  constructor <;> ring

/-- A left fold of binary `max` never goes below its initial value. -/
theorem foldl_max_init_le {α : Type} [LinearOrder α] (l : List α) (a : α) :
    a ≤ l.foldl max a := by
  induction l generalizing a with
  | nil => exact le_refl a
  | cons x xs ih => exact le_trans (le_max_left a x) (ih (max a x))

/-- A left fold of binary `max` dominates every member of the list. -/
theorem le_foldl_max_of_mem {α : Type} [LinearOrder α] {x : α} {l : List α} :
    x ∈ l → ∀ a : α, x ≤ l.foldl max a := by
  induction l with
  | nil => intro hx; cases hx
  | cons y ys ih =>
    intro hx a
    rcases List.mem_cons.mp hx with h | h
    · subst h
      exact le_trans (le_max_right a x) (foldl_max_init_le ys (max a x))
    · exact ih h (max a y)

/-- A left fold of binary `max` is the initial value or a member of the list. -/
theorem foldl_max_mem {α : Type} [LinearOrder α] (l : List α) (a : α) :
    l.foldl max a ∈ a :: l := by
  induction l generalizing a with
  | nil => exact List.mem_singleton.mpr rfl
  | cons y ys ih =>
    rw [List.foldl_cons]
    rcases List.mem_cons.mp (ih (max a y)) with h1 | h1
    · rcases max_choice a y with hc | hc
      · rw [h1, hc]; exact List.mem_cons_self _ _
      · rw [h1, hc]; exact List.mem_cons.mpr (Or.inr (List.mem_cons_self _ _))
    · exact List.mem_cons.mpr (Or.inr (List.mem_cons.mpr (Or.inr h1)))

/-- Every member of a nonempty list is bounded by `listMax`. -/
theorem le_listMax {α : Type} [LinearOrder α] [Zero α] {x : α} {l : List α}
    (hx : x ∈ l) : x ≤ listMax l := by
  cases l with
  | nil => cases hx
  | cons y ys =>
    rcases List.mem_cons.mp hx with h | h
    · subst h; exact foldl_max_init_le ys x
    · exact le_foldl_max_of_mem h y

/-- On a nonempty list, `listMax` is attained by a member. -/
theorem listMax_mem {α : Type} [LinearOrder α] [Zero α] {l : List α}
    (h : l ≠ []) : listMax l ∈ l := by
  cases l with
  | nil => exact absurd rfl h
  | cons y ys => exact foldl_max_mem ys y

/-- A path of `n` simulated hours holds `n + 1` points. -/
theorem runPath_length (rand : ℕ → ℝ) (weather : MarineWeatherData) :
    ∀ (n c : ℕ) (p : DriftPoint), (runPath rand weather c p n).length = n + 1 := by
  intro n
  induction n with
  | zero => intro c p; rfl
  | succ m ih => intro c p; simp [runPath, ih]

/-- The first point of a path is the point it was started from. -/
theorem runPath_head (rand : ℕ → ℝ) (weather : MarineWeatherData)
    (n c : ℕ) (p : DriftPoint) : (runPath rand weather c p n).head? = some p := by
  cases n <;> rfl

/-- Claim C2: for in-range `simulationHours` and `numPaths`, the simulation
returns exactly `numPaths` paths, each with `simulationHours + 1` points, the
first point being the start position. -/
theorem monteCarlo_path_shape (rand : ℕ → ℝ) (startLat startLng : ℝ)
    (weather : MarineWeatherData) (simulationHours numPaths : ℕ)
    (h1 : 1 ≤ simulationHours) (h2 : simulationHours ≤ 12)
    (h3 : 10 ≤ numPaths) (h4 : numPaths ≤ 200) :
    (runMonteCarloSimulation rand startLat startLng weather simulationHours
        numPaths).driftPaths.length = numPaths ∧
    ∀ path ∈ (runMonteCarloSimulation rand startLat startLng weather
        simulationHours numPaths).driftPaths,
      path.length = simulationHours + 1 ∧ path.head? = some ⟨startLat, startLng⟩ := by
  constructor
  · simp [runMonteCarloSimulation, simDriftPaths]
  · intro path hp
    have hmem : ∃ i, i < numPaths ∧
        runPath rand weather (4 * simulationHours * i) ⟨startLat, startLng⟩
          simulationHours = path := by
      simpa [runMonteCarloSimulation, simDriftPaths] using hp
    obtain ⟨i, _, rfl⟩ := hmem
    exact ⟨runPath_length rand weather simulationHours _ _,
      runPath_head rand weather simulationHours _ _⟩

/-- Witness for claim C2 at concrete inputs. -/
theorem monteCarlo_path_shape_witness :
    (1 : ℕ) ≤ 3 ∧ (3 : ℕ) ≤ 12 ∧ (10 : ℕ) ≤ 10 ∧ (10 : ℕ) ≤ 200 ∧
    ((runMonteCarloSimulation (fun _ => 0) 13 80 ⟨20, 180, 1.5, 0.5, 200⟩ 3
        10).driftPaths.length = 10 ∧
     ∀ path ∈ (runMonteCarloSimulation (fun _ => 0) 13 80 ⟨20, 180, 1.5, 0.5, 200⟩
         3 10).driftPaths,
       path.length = 3 + 1 ∧ path.head? = some ⟨13, 80⟩) :=
  ⟨by norm_num, by norm_num, by norm_num, by norm_num,
   monteCarlo_path_shape (fun _ => 0) 13 80 ⟨20, 180, 1.5, 0.5, 200⟩ 3 10
     (by norm_num) (by norm_num) (by norm_num) (by norm_num)⟩

/-- With zero wind speed and zero current speed, the drift displacement
vanishes for any directions and duration. -/
theorem calculateDrift_zero_speeds (lat lng thetaW thetaC h : ℝ) :
    calculateDrift lat lng 0 thetaW 0 thetaC h = ⟨lat, lng⟩ := by
  simp only [calculateDrift, R, DriftPoint.mk.injEq]
  constructor <;> ring

/-- Randomly perturbing the value zero by any percentage yields zero. -/
theorem randomVariation_zero (percentage r : ℝ) :
    randomVariation 0 percentage r = 0 := by
  simp [randomVariation]

/-- With zero wind and current speed in the weather sample, one simulated
hour leaves the position unchanged, for every random draw. -/
theorem driftStep_zero_speed (rand : ℕ → ℝ) (c : ℕ) (weather : MarineWeatherData)
    (p : DriftPoint) (hw : weather.windSpeed = 0) (hc : weather.currentSpeed = 0) :
    driftStep rand c weather p = p := by
  simp only [driftStep, hw, hc, randomVariation_zero]
  rw [calculateDrift_zero_speeds]

/-- With zero wind and current speed, every point of a simulated path equals
the starting point. -/
theorem runPath_const_of_zero_speed (rand : ℕ → ℝ) (weather : MarineWeatherData)
    (hw : weather.windSpeed = 0) (hc : weather.currentSpeed = 0) :
    ∀ (n c : ℕ) (p q : DriftPoint), q ∈ runPath rand weather c p n → q = p := by
  intro n
  induction n with
  | zero =>
    intro c p q hq
    simpa [runPath] using hq
  | succ m ih =>
    intro c p q hq
    simp only [runPath] at hq
    rcases List.mem_cons.mp hq with h | h
    · exact h
    · rw [driftStep_zero_speed rand c weather p hw hc] at h
      exact ih (c + 4) p q h

/-- Claim C7: with zero wind speed and zero current speed, `calculateDrift`
is the identity on positions for any directions and duration, and every point
of every simulated path equals the start position. -/
theorem zero_velocity_identity (rand : ℕ → ℝ) (startLat startLng : ℝ)
    (weather : MarineWeatherData) (simulationHours numPaths : ℕ)
    (hw : weather.windSpeed = 0) (hc : weather.currentSpeed = 0) :
    (∀ lat lng thetaW thetaC h,
      calculateDrift lat lng 0 thetaW 0 thetaC h = ⟨lat, lng⟩) ∧
    ∀ path ∈ (runMonteCarloSimulation rand startLat startLng weather
        simulationHours numPaths).driftPaths,
      ∀ p ∈ path, p = ⟨startLat, startLng⟩ := by
  refine ⟨fun lat lng thetaW thetaC h => calculateDrift_zero_speeds lat lng thetaW thetaC h, ?_⟩
  intro path hp p hq
  have hmem : ∃ i, i < numPaths ∧
      runPath rand weather (4 * simulationHours * i) ⟨startLat, startLng⟩
        simulationHours = path := by
    simpa [runMonteCarloSimulation, simDriftPaths] using hp
  obtain ⟨i, _, rfl⟩ := hmem
  exact runPath_const_of_zero_speed rand weather hw hc simulationHours _ _ p hq

/-- Witness for claim C7 at concrete inputs. -/
theorem zero_velocity_identity_witness :
    (⟨0, 90, 1, 0, 45⟩ : MarineWeatherData).windSpeed = 0 ∧
    (⟨0, 90, 1, 0, 45⟩ : MarineWeatherData).currentSpeed = 0 ∧
    ((∀ lat lng thetaW thetaC h,
       calculateDrift lat lng 0 thetaW 0 thetaC h = ⟨lat, lng⟩) ∧
     ∀ path ∈ (runMonteCarloSimulation (fun _ => 0) 1 2 ⟨0, 90, 1, 0, 45⟩
         2 3).driftPaths,
       ∀ p ∈ path, p = ⟨1, 2⟩) :=
  ⟨rfl, rfl, zero_velocity_identity (fun _ => 0) 1 2 ⟨0, 90, 1, 0, 45⟩ 2 3 rfl rfl⟩

/-- With zero simulated hours every path is the singleton start point, so the
pool of non-initial sampled positions is empty. -/
theorem allSampledPoints_zero_hours (rand : ℕ → ℝ) (startLat startLng : ℝ)
    (weather : MarineWeatherData) (numPaths : ℕ) :
    allSampledPoints (simDriftPaths rand startLat startLng weather 0 numPaths) = [] := by
  simp [allSampledPoints, simDriftPaths, runPath]

/-- Claim C6: with `numPaths = 0` or `simulationHours = 0` the engine yields
empty heatmap and predicted points (and, with `numPaths = 0`, empty paths)
instead of failing. -/
theorem degenerate_inputs (rand : ℕ → ℝ) (startLat startLng : ℝ)
    (weather : MarineWeatherData) (simulationHours numPaths : ℕ)
    (h : numPaths = 0 ∨ simulationHours = 0) :
    (runMonteCarloSimulation rand startLat startLng weather simulationHours
        numPaths).heatmapPoints = [] ∧
    (runMonteCarloSimulation rand startLat startLng weather simulationHours
        numPaths).predictedPoints = [] ∧
    (numPaths = 0 →
      (runMonteCarloSimulation rand startLat startLng weather simulationHours
        numPaths).driftPaths = []) := by
  rcases h with h | h
  · subst h
    refine ⟨?_, ?_, fun _ => ?_⟩ <;>
      simp [runMonteCarloSimulation, simDriftPaths, allSampledPoints,
        heatmapOfKeys, calculateCentroidPoints]
  · subst h
    have ha := allSampledPoints_zero_hours rand startLat startLng weather numPaths
    refine ⟨?_, ?_, fun h0 => ?_⟩
    · simp [runMonteCarloSimulation, ha, heatmapOfKeys]
    · simp [runMonteCarloSimulation, ha, calculateCentroidPoints]
    · subst h0
      simp [runMonteCarloSimulation, simDriftPaths]

/-- Witness for claim C6 at concrete inputs. -/
theorem degenerate_inputs_witness :
    ((0 : ℕ) = 0 ∨ (3 : ℕ) = 0) ∧
    ((runMonteCarloSimulation (fun _ => 0) 5 6 ⟨12, 45, 1, 0.4, 30⟩ 3
        0).heatmapPoints = [] ∧
     (runMonteCarloSimulation (fun _ => 0) 5 6 ⟨12, 45, 1, 0.4, 30⟩ 3
        0).predictedPoints = [] ∧
     ((0 : ℕ) = 0 →
       (runMonteCarloSimulation (fun _ => 0) 5 6 ⟨12, 45, 1, 0.4, 30⟩ 3
        0).driftPaths = [])) :=
  ⟨Or.inl rfl,
   degenerate_inputs (fun _ => 0) 5 6 ⟨12, 45, 1, 0.4, 30⟩ 3 0 (Or.inl rfl)⟩

/-- Deduplication of a nonempty list is nonempty. -/
theorem dedup_ne_nil_of_ne_nil {α : Type} [DecidableEq α] {l : List α}
    (h : l ≠ []) : l.dedup ≠ [] := by
  cases l with
  | nil => exact absurd rfl h
  | cons x xs =>
    intro hd
    have hx : x ∈ (x :: xs).dedup := List.mem_dedup.mpr (List.mem_cons_self x xs)
    rw [hd] at hx
    cases hx

/-- Normalisation of the occupancy counts of the source: every emitted
intensity is positive and at most one, and the intensity of a cell whose
count attains `simMaxCount` is exactly one. -/
theorem heatmapOfKeys_intensities (allKeys : List (ℤ × ℤ)) (hne : allKeys ≠ []) :
    (∀ q ∈ heatmapOfKeys allKeys, 0 < q.intensity ∧ q.intensity ≤ 1) ∧
    ∃ q ∈ heatmapOfKeys allKeys, q.intensity = 1 := by
  have hdne : allKeys.dedup ≠ [] := dedup_ne_nil_of_ne_nil hne
  have hcne : (allKeys.dedup.map fun k => allKeys.count k) ≠ [] := by
    simpa using hdne
  have hmax_mem := listMax_mem hcne
  rw [List.mem_map] at hmax_mem
  obtain ⟨k0, hk0, hk0max⟩ := hmax_mem
  have hk0pos : 0 < allKeys.count k0 :=
    List.count_pos_iff.mpr (List.mem_dedup.mp hk0)
  have hk0eq : allKeys.count k0 = simMaxCount allKeys := by
    rw [simMaxCount]; exact hk0max
  have hmaxpos : 0 < simMaxCount allKeys := by
    rw [← hk0eq]; exact hk0pos
  constructor
  · intro q hq
    rw [heatmapOfKeys, List.mem_map] at hq
    obtain ⟨k, hk, rfl⟩ := hq
    have hkpos : 0 < allKeys.count k := List.count_pos_iff.mpr (List.mem_dedup.mp hk)
    have hkle : allKeys.count k ≤ simMaxCount allKeys := by
      rw [simMaxCount]
      exact le_listMax (List.mem_map_of_mem _ hk)
    constructor
    · exact div_pos (by exact_mod_cast hkpos) (by exact_mod_cast hmaxpos)
    · rw [div_le_one (by exact_mod_cast hmaxpos)]
      exact_mod_cast hkle
  · refine ⟨⟨(k0.1 : ℝ) / 1000, (k0.2 : ℝ) / 1000,
      (allKeys.count k0 : ℝ) / (simMaxCount allKeys : ℝ)⟩, ?_, ?_⟩
    · rw [heatmapOfKeys]
      exact List.mem_map_of_mem _ hk0
    · show (allKeys.count k0 : ℝ) / (simMaxCount allKeys : ℝ) = 1
      rw [hk0eq]
      exact div_self (ne_of_gt (by exact_mod_cast hmaxpos))

/-- The pool drawn from a list of paths of uniform length `H + 1` holds `H`
points per path. -/
theorem allSampledPoints_length_general (H : ℕ) :
    ∀ paths : List (List DriftPoint),
      (∀ path ∈ paths, path.length = H + 1) →
      (allSampledPoints paths).length = paths.length * H := by
  intro paths
  induction paths with
  | nil => intro _; simp [allSampledPoints]
  | cons p ps ih =>
    intro hall
    have hp : p.length = H + 1 := hall p (List.mem_cons_self p ps)
    have hih := ih fun q hq => hall q (List.mem_cons.mpr (Or.inr hq))
    have hcons : allSampledPoints (p :: ps) = p.drop 1 ++ allSampledPoints ps := by
      simp [allSampledPoints]
    rw [hcons, List.length_append, List.length_drop, hp, hih, List.length_cons,
      Nat.succ_mul]
    omega

/-- The simulation generates exactly `numPaths` paths. -/
theorem simDriftPaths_length (rand : ℕ → ℝ) (startLat startLng : ℝ)
    (weather : MarineWeatherData) (simulationHours numPaths : ℕ) :
    (simDriftPaths rand startLat startLng weather simulationHours
      numPaths).length = numPaths := by
  simp [simDriftPaths]

/-- The pool of non-initial sampled positions holds exactly
`numPaths * simulationHours` points. -/
theorem allSampledPoints_length (rand : ℕ → ℝ) (startLat startLng : ℝ)
    (weather : MarineWeatherData) (simulationHours numPaths : ℕ) :
    (allSampledPoints (simDriftPaths rand startLat startLng weather simulationHours
      numPaths)).length = numPaths * simulationHours := by
  have hall : ∀ path ∈ simDriftPaths rand startLat startLng weather simulationHours
      numPaths, path.length = simulationHours + 1 := by
    intro path hp
    have hmem : ∃ i, i < numPaths ∧
        runPath rand weather (4 * simulationHours * i) ⟨startLat, startLng⟩
          simulationHours = path := by
      simpa [simDriftPaths] using hp
    obtain ⟨i, _, rfl⟩ := hmem
    exact runPath_length rand weather simulationHours _ _
  rw [allSampledPoints_length_general simulationHours _ hall,
    simDriftPaths_length rand startLat startLng weather simulationHours numPaths]

/-- Claim C3: with at least one path and one simulated hour, every heatmap
intensity lies in the half-open interval from zero (exclusive) to one
(inclusive), and the modal cell has intensity exactly one. -/
theorem heatmap_normalization (rand : ℕ → ℝ) (startLat startLng : ℝ)
    (weather : MarineWeatherData) (simulationHours numPaths : ℕ)
    (hp : 1 ≤ numPaths) (hh : 1 ≤ simulationHours) :
    (∀ q ∈ (runMonteCarloSimulation rand startLat startLng weather simulationHours
        numPaths).heatmapPoints, 0 < q.intensity ∧ q.intensity ≤ 1) ∧
    ∃ q ∈ (runMonteCarloSimulation rand startLat startLng weather simulationHours
        numPaths).heatmapPoints, q.intensity = 1 := by
  have hlen := allSampledPoints_length rand startLat startLng weather simulationHours
    numPaths
  have hpos : 0 < (allSampledPoints (simDriftPaths rand startLat startLng weather
      simulationHours numPaths)).length := by
    rw [hlen]; exact Nat.mul_pos hp hh
  have hne : (allSampledPoints (simDriftPaths rand startLat startLng weather
      simulationHours numPaths)).map gridKey ≠ [] := by
    intro hnil
    have h0 : (allSampledPoints (simDriftPaths rand startLat startLng weather
        simulationHours numPaths)).length = 0 := by
      simpa using congrArg List.length hnil
    omega
  exact heatmapOfKeys_intensities _ hne

/-- Witness for claim C3 at concrete inputs. -/
theorem heatmap_normalization_witness :
    (1 : ℕ) ≤ 1 ∧
    ((∀ q ∈ (runMonteCarloSimulation (fun _ => 0) 0 0 ⟨0, 0, 0, 0, 0⟩ 1
        1).heatmapPoints, 0 < q.intensity ∧ q.intensity ≤ 1) ∧
     ∃ q ∈ (runMonteCarloSimulation (fun _ => 0) 0 0 ⟨0, 0, 0, 0, 0⟩ 1
        1).heatmapPoints, q.intensity = 1) :=
  ⟨le_refl 1,
   heatmap_normalization (fun _ => 0) 0 0 ⟨0, 0, 0, 0, 0⟩ 1 1 (le_refl 1) (le_refl 1)⟩

/-- Congruence for `filterMap` over functions that agree on the list. -/
theorem filterMap_ext_mem {α β : Type} {f g : α → Option β} :
    ∀ {l : List α}, (∀ x ∈ l, f x = g x) → l.filterMap f = l.filterMap g := by
  intro l
  induction l with
  | nil => intro _; rfl
  | cons x xs ih =>
    intro hfa
    rw [List.filterMap_cons, List.filterMap_cons, hfa x (List.mem_cons_self x xs),
      ih fun y hy => hfa y (List.mem_cons.mpr (Or.inr hy))]

/-- The latitude accumulator loop of the source is the sum of the latitudes. -/
theorem foldl_add_lat (l : List DriftPoint) (a : ℝ) :
    l.foldl (fun sum p => sum + p.lat) a = a + (l.map fun p => p.lat).sum := by
  induction l generalizing a with
  | nil => simp
  | cons x xs ih =>
    rw [List.foldl_cons, ih, List.map_cons, List.sum_cons]
    ring

/-- The longitude accumulator loop of the source is the sum of the
longitudes. -/
theorem foldl_add_lng (l : List DriftPoint) (a : ℝ) :
    l.foldl (fun sum p => sum + p.lng) a = a + (l.map fun p => p.lng).sum := by
  induction l generalizing a with
  | nil => simp
  | cons x xs ih =>
    rw [List.foldl_cons, ih, List.map_cons, List.sum_cons]
    ring

/-- The source centroid computation coincides with the claimed chunk-mean
computation on the pool of non-initial positions of any list of paths. -/
theorem calculateCentroidPoints_eq_spec (paths : List (List DriftPoint)) (hours : ℕ) :
    calculateCentroidPoints (allSampledPoints paths) hours =
      predictedPoints_spec paths hours := by
  simp only [predictedPoints_spec, calculateCentroidPoints, allSampledPoints]
  by_cases hp : ((paths.map fun path => path.drop 1).flatten).length = 0
  · rw [if_pos hp]
    rw [List.length_eq_zero.mp hp]
    simp
  · rw [if_neg hp]
    apply filterMap_ext_mem
    intro h _
    split_ifs with hc
    · rw [foldl_add_lat, foldl_add_lng, zero_add, zero_add]
    · rfl

/-- Claim C4: the predicted points are computed by pooling every non-initial
hourly position of every path in generation order, chunking the pool into
`simulationHours` contiguous chunks of `⌊poolSize / simulationHours⌋`
members with the tail remainder dropped, and emitting the mean latitude and
longitude of each nonempty chunk. -/
theorem predictedPoints_eq_spec (rand : ℕ → ℝ) (startLat startLng : ℝ)
    (weather : MarineWeatherData) (simulationHours numPaths : ℕ) :
    (runMonteCarloSimulation rand startLat startLng weather simulationHours
        numPaths).predictedPoints =
      predictedPoints_spec (runMonteCarloSimulation rand startLat startLng weather
        simulationHours numPaths).driftPaths simulationHours :=
  calculateCentroidPoints_eq_spec _ simulationHours

/-- Claim C5: the search radius is 5 for fewer than two cells, is otherwise
the clamp to the interval from 2 to 50 of half the larger bounding-box span
times 111, and always lies between 2 and 50. -/
theorem searchRadius_characterization (l : List HeatmapPoint) :
    (l.length < 2 → generateSearchAreaRadius l = 5) ∧
    (2 ≤ l.length → generateSearchAreaRadius l =
      max 2 (min 50
        ((max (listMax (l.map fun p => p.lat) - listMin (l.map fun p => p.lat))
              (listMax (l.map fun p => p.lng) - listMin (l.map fun p => p.lng)))
          * 111 / 2))) ∧
    2 ≤ generateSearchAreaRadius l ∧ generateSearchAreaRadius l ≤ 50 := by
  refine ⟨fun h => ?_, fun h => ?_, ?_⟩
  · simp only [generateSearchAreaRadius]
    rw [if_pos h]
  · simp only [generateSearchAreaRadius]
    rw [if_neg (by omega)]
  · by_cases hl : l.length < 2
    · simp only [generateSearchAreaRadius]
      rw [if_pos hl]
      norm_num
    · simp only [generateSearchAreaRadius]
      rw [if_neg hl]
      exact ⟨le_max_left 2 _, max_le (by norm_num) (min_le_left 50 _)⟩

/-- Witness for claim C5 at a concrete input. -/
theorem searchRadius_witness :
    generateSearchAreaRadius [] = 5 ∧
    2 ≤ generateSearchAreaRadius [] ∧ generateSearchAreaRadius [] ≤ 50 :=
  ⟨(searchRadius_characterization []).1 (by norm_num),
   (searchRadius_characterization []).2.2⟩

/-- The point at index zero of a path is its starting point. -/
theorem runPath_getD_zero (rand : ℕ → ℝ) (weather : MarineWeatherData)
    (n c : ℕ) (p d : DriftPoint) : (runPath rand weather c p n).getD 0 d = p := by
  cases n <;> rfl

/-- Each successive point of a path is one `driftStep` from its predecessor,
consuming the four draws at offset `4 * h` of the path block. -/
theorem runPath_getD_succ (rand : ℕ → ℝ) (weather : MarineWeatherData)
    (d : DriftPoint) :
    ∀ (n c h : ℕ) (p : DriftPoint), h < n →
      (runPath rand weather c p n).getD (h + 1) d =
        driftStep rand (c + 4 * h) weather ((runPath rand weather c p n).getD h d) := by
  intro n
  induction n with
  | zero => intro c h p hh; exact absurd hh (Nat.not_lt_zero h)
  | succ m ih =>
    intro c h p hh
    cases h with
    | zero =>
      simp only [runPath, List.getD_cons_succ, List.getD_cons_zero]
      rw [runPath_getD_zero]
      norm_num
    | succ h2 =>
      simp only [runPath, List.getD_cons_succ]
      rw [ih (c + 4) h2 (driftStep rand c weather p) (by omega),
        show c + 4 + 4 * h2 = c + 4 * (h2 + 1) from by ring]

/-- The path at index `i` of the simulation starts its draw block at stream
position `4 * simulationHours * i`. -/
theorem simDriftPaths_getD (rand : ℕ → ℝ) (startLat startLng : ℝ)
    (weather : MarineWeatherData) (simulationHours numPaths i : ℕ)
    (hi : i < numPaths) :
    (simDriftPaths rand startLat startLng weather simulationHours numPaths).getD
        i [] =
      runPath rand weather (4 * simulationHours * i) ⟨startLat, startLng⟩
        simulationHours := by
  simp only [simDriftPaths]
  rw [List.getD_eq_getElem _ _ (by simpa using hi)]
  simp

/-- One simulated hour written with the perturbation formulas of the claim. -/
theorem driftStep_formula (rand : ℕ → ℝ) (c : ℕ) (weather : MarineWeatherData)
    (p : DriftPoint) :
    driftStep rand c weather p =
      calculateDrift p.lat p.lng
        (weather.windSpeed * (1 + 0.20 * (rand c * 2 - 1)))
        (weather.windDirection + 15 * (rand (c + 2) * 2 - 1))
        (weather.currentSpeed * (1 + 0.15 * (rand (c + 1) * 2 - 1)))
        (weather.currentDirection + 10 * (rand (c + 3) * 2 - 1))
        1 := by
  have e1 : randomVariation weather.windSpeed 20 (rand c) =
      weather.windSpeed * (1 + 0.20 * (rand c * 2 - 1)) := by
    simp only [randomVariation]; ring
  have e2 : randomVariation weather.currentSpeed 15 (rand (c + 1)) =
      weather.currentSpeed * (1 + 0.15 * (rand (c + 1) * 2 - 1)) := by
    simp only [randomVariation]; ring
  have e3 : randomAngleVariation weather.windDirection 15 (rand (c + 2)) =
      weather.windDirection + 15 * (rand (c + 2) * 2 - 1) := by
    simp only [randomAngleVariation]; ring
  have e4 : randomAngleVariation weather.currentDirection 10 (rand (c + 3)) =
      weather.currentDirection + 10 * (rand (c + 3) * 2 - 1) := by
    simp only [randomAngleVariation]; ring
  simp only [driftStep]
  rw [e1, e2, e3, e4]

/-- Claim C9: every hop of every path applies `calculateDrift` for exactly
one hour to the previous position, with wind speed `base * (1 + 0.20 * u1)`,
wind direction `base + 15 * u3`, current speed `base * (1 + 0.15 * u2)` and
current direction `base + 10 * u4`, each `u` being a draw mapped into the
interval from -1 to 1; for draws in the unit interval and nonnegative base
speeds, the perturbed wind speed lies within 20 percent and the perturbed
current speed within 15 percent of the base. -/
theorem sampler_perturbation (rand : ℕ → ℝ) (startLat startLng : ℝ)
    (weather : MarineWeatherData) (simulationHours numPaths : ℕ)
    (hrand : ∀ j, 0 ≤ rand j ∧ rand j ≤ 1)
    (hws : 0 ≤ weather.windSpeed) (hcs : 0 ≤ weather.currentSpeed) :
    ∀ i < numPaths, ∀ h < simulationHours,
      ((runMonteCarloSimulation rand startLat startLng weather simulationHours
          numPaths).driftPaths.getD i []).getD (h + 1) ⟨0, 0⟩ =
        calculateDrift
          (((runMonteCarloSimulation rand startLat startLng weather simulationHours
            numPaths).driftPaths.getD i []).getD h ⟨0, 0⟩).lat
          (((runMonteCarloSimulation rand startLat startLng weather simulationHours
            numPaths).driftPaths.getD i []).getD h ⟨0, 0⟩).lng
          (weather.windSpeed *
            (1 + 0.20 * (rand (4 * simulationHours * i + 4 * h) * 2 - 1)))
          (weather.windDirection +
            15 * (rand (4 * simulationHours * i + 4 * h + 2) * 2 - 1))
          (weather.currentSpeed *
            (1 + 0.15 * (rand (4 * simulationHours * i + 4 * h + 1) * 2 - 1)))
          (weather.currentDirection +
            10 * (rand (4 * simulationHours * i + 4 * h + 3) * 2 - 1))
          1 ∧
      0.8 * weather.windSpeed ≤ weather.windSpeed *
          (1 + 0.20 * (rand (4 * simulationHours * i + 4 * h) * 2 - 1)) ∧
      weather.windSpeed *
          (1 + 0.20 * (rand (4 * simulationHours * i + 4 * h) * 2 - 1)) ≤
        1.2 * weather.windSpeed ∧
      0.85 * weather.currentSpeed ≤ weather.currentSpeed *
          (1 + 0.15 * (rand (4 * simulationHours * i + 4 * h + 1) * 2 - 1)) ∧
      weather.currentSpeed *
          (1 + 0.15 * (rand (4 * simulationHours * i + 4 * h + 1) * 2 - 1)) ≤
        1.15 * weather.currentSpeed := by
  intro i hi h hh
  have hproj : (runMonteCarloSimulation rand startLat startLng weather
      simulationHours numPaths).driftPaths =
      simDriftPaths rand startLat startLng weather simulationHours numPaths := rfl
  rw [hproj, simDriftPaths_getD rand startLat startLng weather simulationHours
    numPaths i hi]
  have hr1 := hrand (4 * simulationHours * i + 4 * h)
  have hr2 := hrand (4 * simulationHours * i + 4 * h + 1)
  refine ⟨?_, ?_, ?_, ?_, ?_⟩
  · rw [runPath_getD_succ rand weather ⟨0, 0⟩ simulationHours _ h _ hh,
      driftStep_formula]
  · nlinarith [mul_nonneg hws hr1.1]
  · nlinarith [mul_nonneg hws (by linarith [hr1.2] :
      (0 : ℝ) ≤ 1 - rand (4 * simulationHours * i + 4 * h))]
  · nlinarith [mul_nonneg hcs hr2.1]
  · nlinarith [mul_nonneg hcs (by linarith [hr2.2] :
      (0 : ℝ) ≤ 1 - rand (4 * simulationHours * i + 4 * h + 1))]

/-- Witness for claim C9 at concrete inputs, instantiated at the first path
and the first simulated hour. -/
theorem sampler_perturbation_witness :
    ((runMonteCarloSimulation (fun _ => 1/2) 0 0 ⟨10, 180, 1, 1, 90⟩ 2
        1).driftPaths.getD 0 []).getD 1 ⟨0, 0⟩ =
      calculateDrift
        (((runMonteCarloSimulation (fun _ => 1/2) 0 0 ⟨10, 180, 1, 1, 90⟩ 2
          1).driftPaths.getD 0 []).getD 0 ⟨0, 0⟩).lat
        (((runMonteCarloSimulation (fun _ => 1/2) 0 0 ⟨10, 180, 1, 1, 90⟩ 2
          1).driftPaths.getD 0 []).getD 0 ⟨0, 0⟩).lng
        (10 * (1 + 0.20 * ((1/2 : ℝ) * 2 - 1)))
        (180 + 15 * ((1/2 : ℝ) * 2 - 1))
        (1 * (1 + 0.15 * ((1/2 : ℝ) * 2 - 1)))
        (90 + 10 * ((1/2 : ℝ) * 2 - 1))
        1 ∧
    0.8 * 10 ≤ 10 * (1 + 0.20 * ((1/2 : ℝ) * 2 - 1)) ∧
    10 * (1 + 0.20 * ((1/2 : ℝ) * 2 - 1)) ≤ 1.2 * 10 ∧
    0.85 * 1 ≤ 1 * (1 + 0.15 * ((1/2 : ℝ) * 2 - 1)) ∧
    (1 : ℝ) * (1 + 0.15 * ((1/2 : ℝ) * 2 - 1)) ≤ 1.15 * 1 :=
  sampler_perturbation (fun _ => 1/2) 0 0 ⟨10, 180, 1, 1, 90⟩ 2 1
    (fun j => ⟨by norm_num, by norm_num⟩) (by norm_num) (by norm_num)
    0 (by norm_num) 0 (by norm_num)

/-- If the option-valued function is `some` of `g` on every member,
`filterMap` coincides with `map`. -/
theorem filterMap_eq_map_of_mem {α β : Type} {f : α → Option β} {g : α → β} :
    ∀ {l : List α}, (∀ x ∈ l, f x = some (g x)) → l.filterMap f = l.map g := by
  intro l
  induction l with
  | nil => intro _; rfl
  | cons x xs ih =>
    intro hfa
    rw [List.filterMap_cons_some (hfa x (List.mem_cons_self x xs)), List.map_cons,
      ih fun y hy => hfa y (List.mem_cons.mpr (Or.inr hy))]

/-- With a pool of exactly `P * H` points and `P, H ≥ 1`, the centroid
computation keeps every chunk: chunk `h` is the `P` points starting at pool
index `h * P`, and its mean is emitted as entry `h`. -/
theorem calculateCentroidPoints_exact (points : List DriftPoint) (P H : ℕ)
    (hp : 1 ≤ P) (hh : 1 ≤ H) (hlen : points.length = P * H) :
    (calculateCentroidPoints points H).length = H ∧
    ∀ h < H, ((points.drop (h * P)).take P).length = P ∧
      (calculateCentroidPoints points H).getD h ⟨0, 0⟩ =
        ⟨(((points.drop (h * P)).take P).map fun p => p.lat).sum / (P : ℝ),
         (((points.drop (h * P)).take P).map fun p => p.lng).sum / (P : ℝ)⟩ := by
  have hne : ¬ points.length = 0 := by
    rw [hlen]
    exact Nat.pos_iff_ne_zero.mp (Nat.mul_pos hp hh)
  have hpph : points.length / H = P := by
    rw [hlen]
    exact Nat.mul_div_cancel P (by omega)
  have hchunk : ∀ h, h < H → ((points.drop (h * P)).take P).length = P := by
    intro h hhH
    rw [List.length_take, List.length_drop, hlen]
    have h1 : h * P + P ≤ P * H := by
      have h2 : (h + 1) * P ≤ H * P := Nat.mul_le_mul_right P (Nat.succ_le_of_lt hhH)
      calc h * P + P = (h + 1) * P := by ring
        _ ≤ H * P := h2
        _ = P * H := Nat.mul_comm H P
    exact min_eq_left (Nat.le_sub_of_add_le (by linarith))
  have hmain : calculateCentroidPoints points H = (List.range H).map fun h =>
      (⟨(((points.drop (h * P)).take P).map fun p => p.lat).sum / (P : ℝ),
        (((points.drop (h * P)).take P).map fun p => p.lng).sum / (P : ℝ)⟩ :
        DriftPoint) := by
    simp only [calculateCentroidPoints, hpph]
    rw [if_neg hne]
    apply filterMap_eq_map_of_mem
    intro h hmem
    have hm : h < H := List.mem_range.mp hmem
    have hc := hchunk h hm
    rw [if_pos (by rw [hc]; omega), hc, foldl_add_lat, foldl_add_lng, zero_add,
      zero_add]
  refine ⟨?_, fun h hm => ⟨hchunk h hm, ?_⟩⟩
  · rw [hmain, List.length_map, List.length_range]
  · rw [hmain, List.getD_eq_getElem _ _ (by simpa using hm)]
    simp

/-- Claim C10: with at least one path and one hour, the pool holds exactly
`numPaths * simulationHours` positions, the chunk size is exactly `numPaths`
so no sample is dropped and no chunk is empty, there are exactly
`simulationHours` predicted points, and point `h` is the mean of the pool
positions at indices `h * numPaths` up to `(h + 1) * numPaths - 1`. -/
theorem centroid_chunks_exact (rand : ℕ → ℝ) (startLat startLng : ℝ)
    (weather : MarineWeatherData) (simulationHours numPaths : ℕ)
    (hp : 1 ≤ numPaths) (hh : 1 ≤ simulationHours) :
    (allSampledPoints (runMonteCarloSimulation rand startLat startLng weather
        simulationHours numPaths).driftPaths).length =
      numPaths * simulationHours ∧
    (allSampledPoints (runMonteCarloSimulation rand startLat startLng weather
        simulationHours numPaths).driftPaths).length / simulationHours =
      numPaths ∧
    (runMonteCarloSimulation rand startLat startLng weather simulationHours
        numPaths).predictedPoints.length = simulationHours ∧
    ∀ h < simulationHours,
      (((allSampledPoints (runMonteCarloSimulation rand startLat startLng weather
          simulationHours numPaths).driftPaths).drop (h * numPaths)).take
          numPaths).length = numPaths ∧
      (runMonteCarloSimulation rand startLat startLng weather simulationHours
          numPaths).predictedPoints.getD h ⟨0, 0⟩ =
        ⟨((((allSampledPoints (runMonteCarloSimulation rand startLat startLng
            weather simulationHours numPaths).driftPaths).drop
            (h * numPaths)).take numPaths).map fun p => p.lat).sum /
            (numPaths : ℝ),
         ((((allSampledPoints (runMonteCarloSimulation rand startLat startLng
            weather simulationHours numPaths).driftPaths).drop
            (h * numPaths)).take numPaths).map fun p => p.lng).sum /
            (numPaths : ℝ)⟩ := by
  have hlen := allSampledPoints_length rand startLat startLng weather
    simulationHours numPaths
  have hex := calculateCentroidPoints_exact
    (allSampledPoints (simDriftPaths rand startLat startLng weather
      simulationHours numPaths)) numPaths simulationHours hp hh hlen
  refine ⟨hlen, ?_, hex.1, fun h hm => hex.2 h hm⟩
  show (allSampledPoints (simDriftPaths rand startLat startLng weather
      simulationHours numPaths)).length / simulationHours = numPaths
  rw [hlen]
  exact Nat.mul_div_cancel numPaths (by omega)

/-- Witness for claim C10 at concrete inputs. -/
theorem centroid_chunks_exact_witness :
    (1 : ℕ) ≤ 1 ∧
    ((allSampledPoints (runMonteCarloSimulation (fun _ => 0) 0 0 ⟨0, 0, 0, 0, 0⟩ 1
        1).driftPaths).length = 1 * 1 ∧
     (allSampledPoints (runMonteCarloSimulation (fun _ => 0) 0 0 ⟨0, 0, 0, 0, 0⟩ 1
        1).driftPaths).length / 1 = 1 ∧
     (runMonteCarloSimulation (fun _ => 0) 0 0 ⟨0, 0, 0, 0, 0⟩ 1
        1).predictedPoints.length = 1 ∧
     ∀ h < 1,
       (((allSampledPoints (runMonteCarloSimulation (fun _ => 0) 0 0
           ⟨0, 0, 0, 0, 0⟩ 1 1).driftPaths).drop (h * 1)).take 1).length = 1 ∧
       (runMonteCarloSimulation (fun _ => 0) 0 0 ⟨0, 0, 0, 0, 0⟩ 1
           1).predictedPoints.getD h ⟨0, 0⟩ =
         ⟨((((allSampledPoints (runMonteCarloSimulation (fun _ => 0) 0 0
             ⟨0, 0, 0, 0, 0⟩ 1 1).driftPaths).drop (h * 1)).take 1).map
             fun p => p.lat).sum / ((1 : ℕ) : ℝ),
          ((((allSampledPoints (runMonteCarloSimulation (fun _ => 0) 0 0
             ⟨0, 0, 0, 0, 0⟩ 1 1).driftPaths).drop (h * 1)).take 1).map
             fun p => p.lng).sum / ((1 : ℕ) : ℝ)⟩) :=
  ⟨le_refl 1, centroid_chunks_exact (fun _ => 0) 0 0 ⟨0, 0, 0, 0, 0⟩ 1 1
    (le_refl 1) (le_refl 1)⟩

end DriftEngine
